import Mathlib

/-!
Verification of the tumai-oai session/caching/consistency engine.

This file gives a shallow embedding, in Lean 4, of the parts of the
repository that the specification's testable properties talk about:

* `app/services/session_manager.py` — the SQLite-backed `SessionManager`
  (sessions table, messages table, in-memory read cache with TTL);
* `app/agents/teacher_agent.py` — the TTL-cached completion helper
  `_get_cached_completion` and the evaluation extraction in `eval_reply`
  / `_extract_score` / `_extract_field`;
* `app/routes/dependencies/security.py` and
  `app/agents/security_agent.py` — the safety-gate dependency
  `validate_teacher_reply` and the attribute set of `SecurityAgent`;
* `app/utils/document_retriever.py` — the corpus-freshness check
  `_has_docs_changed`;
* `app/main.py` — the turn-protocol step `_eval_reply`.

Modelling conventions: Python floats (scores, `time.time()` timestamps,
mtimes) are modelled as exact rationals `ℚ`; SQLite tables are lists of
row structures kept in insertion order (the `messages` table carries an
AUTOINCREMENT id and is read back `ORDER BY created_at`, which returns
insertion order); exceptions raised by the database driver are injected
through an explicit `fail` flag where a claim depends on the failure
path; external collaborators (the OpenAI client) are passed in as
explicit arguments holding the outcome of the call.
-/

namespace Tumai

/-! ### Data model (`app/models.py`) -/

/-- `ChatMessage` from `app/models.py`: a role tag and the content text. -/
structure ChatMessage where
  role : String
  content : String
deriving DecidableEq, Repr

/-- `Task` from `app/models.py`. -/
structure Task where
  id : Nat
  title : String
  description : String
deriving DecidableEq, Repr

/-- `ReplyRequest` from `app/models.py`. -/
structure ReplyRequest where
  session_id : Nat
  history : List ChatMessage
deriving DecidableEq, Repr

/-- `ReplyResponse` from `app/models.py` (the optional score is `Option ℚ`). -/
structure ReplyResponse where
  session_id : Nat
  history : List ChatMessage
  score : Option ℚ
  is_end : Bool
deriving DecidableEq, Repr

/-! ### Session store state (`app/services/session_manager.py`) -/

/-- One row of the `sessions` table (`id, status, scenario, diagnosis`;
`scenario` and `diagnosis` are nullable, `created_at` is not read by any
modelled operation and is omitted). -/
structure SessionRow where
  id : Nat
  status : String
  scenario : Option String
  diagnosis : Option String
deriving DecidableEq, Repr

/-- One row of the `messages` table (`session_id, role, content`).  Rows
are kept in insertion order, which is the order `load_session` reads them
back in (`ORDER BY created_at`, ties resolved by the AUTOINCREMENT id). -/
structure MessageRow where
  session_id : Nat
  role : String
  content : String
deriving DecidableEq, Repr

/-- The durable SQLite database: both tables. -/
structure DB where
  sessions : List SessionRow
  messages : List MessageRow
deriving DecidableEq, Repr

/-- The in-Python session dictionary built by `init_session` /
`load_session` and consumed by `dump_session`.  `scenario` / `diagnosis`
are `Option` because `init_session` returns a dict without those keys and
`load_session` may read SQL `NULL`. -/
structure SessionRec where
  session_id : Nat
  status : String
  scenario : Option String := none
  diagnosis : Option String := none
  history : List ChatMessage
deriving DecidableEq, Repr

/-- The full `SessionManager` state: the database plus the in-memory read
cache `_session_cache` and its per-entry expiry table `_cache_expiry`. -/
structure SMState where
  db : DB
  session_cache : List (Nat × SessionRec)
  cache_expiry : List (Nat × ℚ)
deriving DecidableEq, Repr

/-- `self._cache_ttl = 300` seconds. -/
def cache_ttl : ℚ := 300

/-- Association-list lookup (first binding wins; keys are kept unique by
the update operation below). -/
def alookup {β : Type} : List (Nat × β) → Nat → Option β
  | [], _ => none
  | (k', v) :: rest, k => if k' = k then some v else alookup rest k

/-- Association-list update: replace the binding for `k` if present,
otherwise append it. -/
def aset {β : Type} : List (Nat × β) → Nat → β → List (Nat × β)
  | [], k, v => [(k, v)]
  | (k', v') :: rest, k, v =>
      if k' = k then (k, v) :: rest else (k', v') :: aset rest k v

/-- `SessionManager._cache_session`: store the session dict in the read
cache and stamp its expiry `time.time() + self._cache_ttl`. -/
def cache_session (st : SMState) (sess : SessionRec) (now : ℚ) : SMState :=
  { st with
    session_cache := aset st.session_cache sess.session_id sess
    cache_expiry := aset st.cache_expiry sess.session_id (now + cache_ttl) }

/-- `SessionManager._is_cache_valid`: the id has an expiry entry and the
current time is strictly before it. -/
def is_cache_valid (st : SMState) (sid : Nat) (now : ℚ) : Bool :=
  match alookup st.cache_expiry sid with
  | none => false
  | some e => now < e

/-- `SessionManager.init_session`.  The `sid` argument models the value
drawn by `random.randint(10000, 99999)`.  The `INSERT` into `sessions`
fails with a UNIQUE-constraint `IntegrityError` when the id is already
present; the handler rolls the transaction back and re-raises, which is
the `.error` branch.  On success both rows are inserted and committed,
the session dict (without `scenario`/`diagnosis` keys) is built, cached
and returned. -/
def init_session (st : SMState) (task : Task) (sid : Nat) (now : ℚ) :
    Except String (SMState × SessionRec) :=
  if st.db.sessions.any (fun r => r.id == sid) then
    .error "UNIQUE constraint failed: sessions.id"
  else
    let db' : DB :=
      { sessions := st.db.sessions ++ [⟨sid, "active", none, none⟩]
        messages := st.db.messages ++ [⟨sid, "teacher", task.description⟩] }
    let sess : SessionRec :=
      { session_id := sid
        status := "active"
        history := [⟨"teacher", task.description⟩] }
    .ok (cache_session { st with db := db' } sess now, sess)

/-- The turn history `load_session` reads back for a session id: the
`messages` rows with that `session_id`, in insertion order. -/
def history_for (db : DB) (sid : Nat) : List ChatMessage :=
  (db.messages.filter (fun m => m.session_id == sid)).map
    (fun m => ⟨m.role, m.content⟩)

/-- `SessionManager.load_session`: return the cached dict when present
and unexpired; otherwise read the session row and its messages from the
database, cache the rebuilt dict, and return it (`none` when the row is
absent). -/
def load_session (st : SMState) (sid : Nat) (now : ℚ) :
    SMState × Option SessionRec :=
  if (alookup st.session_cache sid).isSome && is_cache_valid st sid now then
    (st, alookup st.session_cache sid)
  else
    match st.db.sessions.find? (fun r => r.id == sid) with
    | none => (st, none)
    | some row =>
        let sess : SessionRec :=
          { session_id := row.id
            status := row.status
            scenario := row.scenario
            diagnosis := row.diagnosis
            history := history_for st.db sid }
        (cache_session st sess now, some sess)

/-- `SessionManager.dump_session`.  Inside one transaction: `UPDATE` the
session row (`session.get` defaults applied), `DELETE` the session's
message rows, re-`INSERT` the dict's history, `COMMIT`, then cache the
dict.  `fail = true` injects a database exception: the handler rolls the
transaction back, logs, and returns normally, so the state is unchanged
and no error propagates.  Inserting messages for an id with no session
row violates the `FOREIGN KEY` constraint (`PRAGMA foreign_keys = ON`)
and lands in the same rollback branch. -/
def dump_session (st : SMState) (sess : SessionRec) (fail : Bool) (now : ℚ) :
    SMState :=
  if fail then st
  else if !(st.db.sessions.any (fun r => r.id == sess.session_id))
          && !(sess.history.isEmpty) then st
  else
    let db' : DB :=
      { sessions := st.db.sessions.map (fun r =>
          if r.id == sess.session_id then
            { r with
              status := sess.status
              scenario := some (sess.scenario.getD "")
              diagnosis := some (sess.diagnosis.getD "") }
          else r)
        messages :=
          st.db.messages.filter (fun m => !(m.session_id == sess.session_id))
            ++ sess.history.map (fun m => ⟨sess.session_id, m.role, m.content⟩) }
    cache_session { st with db := db' } sess now

/-- `SessionManager.update_session_status`: `UPDATE sessions SET status`
for the id.  When no row matches (`cursor.rowcount == 0`) a warning is
logged and nothing is committed; otherwise the new status is committed
and, if the session is cached, the cached dict's status is overwritten in
place (its expiry entry is not touched).  No transition check of any kind
is performed. -/
def update_session_status (st : SMState) (sid : Nat) (status : String) :
    SMState :=
  if st.db.sessions.any (fun r => r.id == sid) then
    { db :=
        { sessions := st.db.sessions.map (fun r =>
            if r.id == sid then { r with status := status } else r)
          messages := st.db.messages }
      session_cache :=
        match alookup st.session_cache sid with
        | none => st.session_cache
        | some s => aset st.session_cache sid { s with status := status }
      cache_expiry := st.cache_expiry }
  else st

/-! ### Evaluation extraction (`app/agents/teacher_agent.py`)

The parsing in `TeacherAgent.eval_reply` uses three concrete `re`
patterns.  We embed each search as an executable scan over the character
list, with Python's leftmost-match discipline: a position matches only if
the whole pattern matches starting there, and the scan otherwise moves
one character right.  The patterns are literal labels followed by either
a number group `(\d+(?:\.\d+)?)` or a lazy text group, so leftmost-match
plus the local greedy/lazy rules below reproduce the `re.search`
results. -/

/-- Match a literal character sequence at the head of the input and
return the remainder, or `none` when the literal does not occur here. -/
def dropLit : List Char → List Char → Option (List Char)
  | [], cs => some cs
  | _ :: _, [] => none
  | l :: ls, c :: cs => if l = c then dropLit ls cs else none

/-- Greedy run of decimal digits (`\d+` without the nonempty check). -/
def takeDigits : List Char → List Char × List Char
  | [] => ([], [])
  | c :: cs =>
      if c.isDigit then
        let (d, r) := takeDigits cs
        (c :: d, r)
      else ([], c :: cs)

/-- Value of a digit run. -/
def digitsToNat (ds : List Char) : Nat :=
  ds.foldl (fun n c => 10 * n + (c.toNat - 48)) 0

/-- Match `\d+(?:\.\d+)?` at the head of the input: a nonempty greedy
digit run, then optionally a dot followed by a nonempty digit run (the
optional part is skipped when no digit follows the dot).  Returns the
captured value (exact rational, standing in for Python's `float`) and
the remainder. -/
def matchNumber (cs : List Char) : Option (ℚ × List Char) :=
  match takeDigits cs with
  | ([], _) => none
  | (ds, rest) =>
      match rest with
      | '.' :: rest2 =>
          match takeDigits rest2 with
          | ([], _) => some ((digitsToNat ds : ℚ), rest)
          | (fs, rest3) =>
              some ((digitsToNat ds : ℚ) +
                (digitsToNat fs : ℚ) / ((10 : ℚ) ^ fs.length), rest3)
      | _ => some ((digitsToNat ds : ℚ), rest)

/-- Leftmost match of `label ++ ": " ++ \d+(?:\.\d+)?`: the search
`re.search(f"{field}: (\d+(?:\.\d+)?)", text)` used both by the combined
pattern pieces and by `_extract_score`. -/
def findLabelNum (label : List Char) : List Char → Option (ℚ × List Char)
  | [] => none
  | c :: cs =>
      match dropLit (label ++ [':', ' ']) (c :: cs) with
      | some rest =>
          match matchNumber rest with
          | some r => some r
          | none => findLabelNum label cs
      | none => findLabelNum label cs

def drLabel : List Char := "Diagnostic Reasoning Score".toList
def igLabel : List Char := "Information Gathering Score".toList
def daLabel : List Char := "Diagnosis Accuracy Score".toList
def commLabel : List Char := "Communication Score".toList

/-- The combined pattern of `eval_reply` (line 235), matched with
`re.DOTALL`: the four labelled number groups separated by lazy `.+?`
gaps.  Each gap consumes at least one character and the next label is
then found at its earliest position, which is the lazy-match result. -/
def combinedPattern (text : List Char) : Option (ℚ × ℚ × ℚ × ℚ) :=
  match findLabelNum drLabel text with
  | none => none
  | some (a, r1) =>
      match r1 with
      | [] => none
      | _ :: r1' =>
          match findLabelNum igLabel r1' with
          | none => none
          | some (b, r2) =>
              match r2 with
              | [] => none
              | _ :: r2' =>
                  match findLabelNum daLabel r2' with
                  | none => none
                  | some (c, r3) =>
                      match r3 with
                      | [] => none
                      | _ :: r3' =>
                          match findLabelNum commLabel r3' with
                          | none => none
                          | some (d, _) => some (a, b, c, d)

/-- `TeacherAgent._extract_score`: leftmost `f"{field}: (\d+(?:\.\d+)?)"`
match, defaulting to the neutral midpoint `5.0` when the pattern does not
occur (nothing inside the search can raise, so the `except` branch of the
source is dead and also yields `5.0`). -/
def extract_score (text label : List Char) : ℚ :=
  match findLabelNum label text with
  | some (v, _) => v
  | none => 5

/-- Python `\s` character class (`[ \t\n\r\f\v]`). -/
def isPyWS (c : Char) : Bool :=
  c = ' ' || c = '\t' || c = '\n' || c = '\r' || c = '\x0b' || c = '\x0c'

/-- Greedy `\s*`: the maximal whitespace run and the remainder. -/
def takeWS : List Char → List Char × List Char
  | [] => ([], [])
  | c :: cs =>
      if isPyWS c then
        let (w, r) := takeWS cs
        (c :: w, r)
      else ([], c :: cs)

/-- `[A-Za-z]`. -/
def isAsciiLetter (c : Char) : Bool :=
  ('A' ≤ c && c ≤ 'Z') || ('a' ≤ c && c ≤ 'z')

/-- Tail of `[A-Za-z]+:` after its first letter: keep consuming letters;
the first non-letter must be a colon (a colon is not a letter, so no
backtracking variant can match anywhere else). -/
def letterColonTail : List Char → Bool
  | [] => false
  | c :: cs => if isAsciiLetter c then letterColonTail cs else c = ':'

/-- `\n[A-Za-z]+:` at the head of the input. -/
def newlineLetterColon : List Char → Bool
  | '\n' :: c :: cs => isAsciiLetter c && letterColonTail cs
  | _ => false

/-- Does the terminator alternation `(?:\n\n|\n[A-Za-z]+:|$)` of
`_extract_field` match at this point? -/
def termAt : List Char → Bool
  | [] => true
  | '\n' :: '\n' :: _ => true
  | cs => newlineLetterColon cs

/-- Extend the lazy group `(.+?)` one character at a time until the
terminator matches (it always matches at the end of the input). -/
def lazyGroupAux (acc : List Char) : List Char → List Char
  | [] => acc.reverse
  | c :: cs => if termAt (c :: cs) then acc.reverse else lazyGroupAux (c :: acc) cs

/-- The lazy group `(.+?)` (at least one character, then the earliest
terminator position), or `none` when no character is available. -/
def lazyGroup : List Char → Option (List Char)
  | [] => none
  | c :: cs => some (lazyGroupAux [c] cs)

/-- Leftmost match of `f"{field}:\s*(.+?)(?:\n\n|\n[A-Za-z]+:|$)"` under
`re.DOTALL`, returning the captured group.  When the label occurs at the
very end of the input (only whitespace after the colon) the group can at
best capture whitespace, which the caller's `.strip()` erases, so the
scan simply continues — the final result is identical. -/
def findLabelField (label : List Char) : List Char → Option (List Char)
  | [] => none
  | c :: cs =>
      match dropLit (label ++ [':']) (c :: cs) with
      | some rest =>
          match lazyGroup (takeWS rest).2 with
          | some g => some g
          | none => findLabelField label cs
      | none => findLabelField label cs

/-- Python `str.strip()` over the `\s` class. -/
def stripWS (cs : List Char) : List Char :=
  ((cs.dropWhile isPyWS).reverse.dropWhile isPyWS).reverse

/-- `TeacherAgent._extract_field`: the stripped captured group, or the
empty string when the pattern does not occur. -/
def extract_field (text label : List Char) : List Char :=
  match findLabelField label text with
  | some g => stripWS g
  | none => []

/-- Substring test (`needle in haystack` on Python strings). -/
def containsSub (needle : List Char) : List Char → Bool
  | [] => (dropLit needle []).isSome
  | c :: cs => (dropLit needle (c :: cs)).isSome || containsSub needle cs

def ecLabel : List Char := "End Conversation".toList
def fbLabel : List Char := "Feedback".toList

/-- The four dimension scores parsed by `eval_reply`: the combined
pattern when it matches, otherwise the per-field `_extract_score`
fallback for each label. -/
def parseDimScores (text : List Char) : ℚ × ℚ × ℚ × ℚ :=
  match combinedPattern text with
  | some t => t
  | none =>
      (extract_score text drLabel, extract_score text igLabel,
       extract_score text daLabel, extract_score text commLabel)

/-- The parsing tail of `TeacherAgent.eval_reply` applied to the
evaluator's raw text: dimension scores, overall score
`(dr + ig + da + comm) / 40.0`, the end decision
`"yes" in _extract_field(text, "End Conversation").lower()`, and the
extracted feedback field.  Every step is a total function: no input can
make the extraction raise. -/
def extractEvaluation (text : List Char) : ℚ × Bool × List Char :=
  let (a, b, c, d) := parseDimScores text
  let overall := (a + b + c + d) / 40
  let isEnd :=
    containsSub "yes".toList ((extract_field text ecLabel).map Char.toLower)
  let feedback := extract_field text fbLabel
  (overall, isEnd, feedback)

/-- `TeacherAgent.eval_reply`, with the outcome of the (external, cached)
completion call passed in: when the call raises, the `except` handler
returns the fixed `(0.5, False, "Error evaluating response, please
continue.")`; otherwise the response text is parsed as above. -/
def eval_reply (completion : Except Unit (List Char)) : ℚ × Bool × List Char :=
  match completion with
  | .error _ => (1/2, false, "Error evaluating response, please continue.".toList)
  | .ok text => extractEvaluation text

/-! ### Memoization layer (`cachetools.TTLCache` as used in
`app/agents/teacher_agent.py`)

`openai_completion_cache = TTLCache(maxsize=100, ttl=3600)`.  Entries are
kept in insertion order with an absolute expiry stamp `insert time +
ttl`; a lookup treats an entry as present only while the current time is
strictly before its expiry; an insertion first drops expired entries,
then evicts the oldest entry if the cache is at capacity (the LRU
reordering performed by `__getitem__` only changes which entry an
at-capacity insertion evicts, a situation none of the verified properties
reaches, and is not modelled). -/

structure TTLCache (α : Type) where
  entries : List (String × α × ℚ)
  ttl : ℚ
  maxsize : Nat
deriving DecidableEq, Repr

/-- Lookup the (unique) entry for a key: its value and expiry stamp. -/
def TTLCache.lookupEntry {α : Type} (c : TTLCache α) (k : String) :
    Option (α × ℚ) :=
  match c.entries.find? (fun e => e.1 == k) with
  | none => none
  | some e => some e.2

/-- `key in cache`: the key has an entry whose expiry is still in the
future. -/
def TTLCache.containsValid {α : Type} (c : TTLCache α) (k : String) (now : ℚ) :
    Bool :=
  match c.lookupEntry k with
  | none => false
  | some (_, exp) => now < exp

/-- `cache[key] = value`: drop expired entries, drop any previous entry
for the key, evict the oldest-inserted entry when at capacity, and append
the new entry with expiry `now + ttl`. -/
def TTLCache.setItem {α : Type} (c : TTLCache α) (k : String) (v : α) (now : ℚ) :
    TTLCache α :=
  let live := c.entries.filter (fun e => now < e.2.2 && !(e.1 == k))
  let trimmed := if c.maxsize ≤ live.length then live.drop 1 else live
  { c with entries := trimmed ++ [(k, v, now + c.ttl)] }

/-- The cache key `f"{model}_{str(messages)}_{temperature}_{max_tokens}"`
built by `_get_cached_completion`, over the string forms of the call's
arguments. -/
def completion_cache_key (model messages temperature max_tokens : String) :
    String :=
  model ++ "_" ++ messages ++ "_" ++ temperature ++ "_" ++ max_tokens

/-- `TeacherAgent._get_cached_completion` on the completion cache: return
the cached response when the key is present and unexpired, otherwise call
the provider (its result is the `computed` argument), cache it, and
return it.  The third component records whether the provider was
invoked. -/
def get_cached_completion {α : Type} (c : TTLCache α) (key : String)
    (computed : α) (now : ℚ) : α × TTLCache α × Bool :=
  match c.lookupEntry key with
  | some (v, exp) =>
      if now < exp then (v, c, false)
      else (computed, c.setItem key computed now, true)
  | none => (computed, c.setItem key computed now, true)

/-! ### Safety gate (`app/routes/dependencies/security.py`,
`app/agents/security_agent.py`) -/

/-- The attribute names bound on a `SecurityAgent` instance: the five
fields set in `__init__` and the methods of the class body
(`app/agents/security_agent.py`).  There is no attribute named
`check`. -/
def securityAgentAttrs : List String :=
  ["role", "goal", "backstory", "sensitive_keywords", "openai_client",
   "contains_sensitive_info", "check_for_patient_identifiers",
   "analyze_security_risks", "check_for_confidential_information",
   "check_for_prompt_injection", "filter_confidential_content",
   "_redact_sensitive_information", "validate_reply"]

/-- Outcome of the `validate_teacher_reply` FastAPI dependency: the
request passes, or a `SecurityBreachException` (HTTP 400) carries the
rejection reason, or an uncaught Python exception escapes (surfaced by
the framework as an internal server error). -/
inductive ValidateOutcome where
  | ok (req : ReplyRequest)
  | securityRejected (detail : String)
  | attributeErr (name : String)
deriving DecidableEq, Repr

/-- `validate_teacher_reply`: the dependency evaluates
`security_agent.check`, an attribute lookup on the shared
`SecurityAgent` instance, before any call can happen.  The class defines
no such attribute, so the lookup raises `AttributeError` for every
request; the keyword / pattern / analysis checks and the
`SecurityBreachException` branch are unreachable. -/
def validate_teacher_reply (req : ReplyRequest) : ValidateOutcome :=
  if securityAgentAttrs.contains "check" then
    .ok req
  else .attributeErr "check"

/-! ### Fingerprint tracker (`app/utils/document_retriever.py`) -/

/-- One row of the persisted metadata manifest `doc_metadata.csv`, as
written by `_generate_embeddings`: path, mtime and size of a source
file. -/
structure ManifestRow where
  path : String
  mtime : ℚ
  size : Nat
deriving DecidableEq, Repr

/-- One entry of the document location's file listing, carrying the data
`Path.rglob` / `Path.stat` expose to `_has_docs_changed`. -/
structure FsEntry where
  path : String
  suffix : String
  mtime : ℚ
  size : Nat
  is_file : Bool
deriving DecidableEq, Repr

/-- The tolerance `1e-6` of the mtime comparison. -/
def mtimeTol : ℚ := 1 / 1000000

/-- `current_files_metadata`: the path → mtime pairs of the eligible
files (regular files whose suffix is `.txt` or `.pdf`) currently under
the document location. -/
def current_files_metadata (dir : List FsEntry) : List (String × ℚ) :=
  (dir.filter (fun f =>
      f.is_file && (f.suffix == ".txt" || f.suffix == ".pdf"))).map
    (fun f => (f.path, f.mtime))

/-- Python `set(a.keys()) == set(b.keys())` over association lists. -/
def sameKeySet (a b : List String) : Bool :=
  a.all (fun x => b.contains x) && b.all (fun x => a.contains x)

/-- `dict.get(path, 0)` over the stored path → mtime pairs. -/
def storedMtime (stored : List (String × ℚ)) (p : String) : ℚ :=
  match stored.find? (fun e => e.1 == p) with
  | none => 0
  | some e => e.2

/-- `OptimizedDocumentRetriever._has_docs_changed`: stale (`true`) when
no manifest exists; otherwise build `stored_metadata = {path: mtime}`
from the manifest (the stored sizes are not read), compare the current
eligible path set against the stored path set, and finally flag any file
whose current mtime exceeds its stored mtime by more than `1e-6`.  The
I/O-failure branches of the source (unparsable manifest, unreadable
document path) all return stale and are outside this model. -/
def has_docs_changed (manifest : Option (List ManifestRow))
    (dir : List FsEntry) : Bool :=
  match manifest with
  | none => true
  | some rows =>
      let stored : List (String × ℚ) := rows.map (fun r => (r.path, r.mtime))
      let current := current_files_metadata dir
      if !(sameKeySet (current.map Prod.fst) (stored.map Prod.fst)) then true
      else current.any (fun e => storedMtime stored e.1 + mtimeTol < e.2)

/-! ### Turn protocol step (`app/main.py`, `_eval_reply`) -/

/-- The closing summary appended to the generated response when the
evaluator signals the end of the session.  Python renders the score with
`f"{score:.2f}"`; the exact digits are irrelevant to every verified
property, so the score is carried as a rational by a placeholder
renderer. -/
def session_summary (score : ℚ) (feedback : List Char) : List Char :=
  "\n\n**Session Summary**\nYour final score: ".toList ++
    (toString score.num).toList ++ "/".toList ++ (toString score.den).toList ++
    "/1.0\n\n**Feedback**:\n".toList ++ feedback

/-- `_eval_reply` from `app/main.py`, after the security dependency has
passed.  The outcomes of the two external completion calls are passed in:
`evalCompletion` feeds `TeacherAgent.eval_reply` and `genResponse` is the
generated teacher response text.  Steps, as in the source: load the
session (404 `"Session not found."` when absent — the status is never
examined); evaluate and generate; extend the *request's* history with
the teacher message; `dump_session` the *loaded* session dict; when the
evaluator signalled the end, set the session status to `finished`;
return the response. -/
def eval_reply_step (st : SMState) (req : ReplyRequest)
    (evalCompletion : Except Unit (List Char)) (genResponse : List Char)
    (now : ℚ) : Except String (SMState × ReplyResponse) :=
  match load_session st req.session_id now with
  | (_, none) => .error "Session not found."
  | (st0, some session) =>
      let (score, isEnd, feedback) := eval_reply evalCompletion
      let teacherResponse :=
        if isEnd then genResponse ++ session_summary score feedback
        else genResponse
      let history' := req.history ++ [⟨"teacher", String.mk teacherResponse⟩]
      let st1 := dump_session st0 session false now
      let st2 :=
        if isEnd then update_session_status st1 req.session_id "finished"
        else st1
      .ok (st2, ⟨req.session_id, history', some score, isEnd⟩)

/-- Discriminator for `Except` results (no exception escaped). -/
def exceptOk {ε α : Type} : Except ε α → Bool
  | .ok _ => true
  | .error _ => false

/-! ### Helper lemmas -/

/-- Updating an association list and looking the same key back up yields
the new value. -/
theorem alookup_aset {β : Type} (l : List (Nat × β)) (k : Nat) (v : β) :
    alookup (aset l k v) k = some v := by
  induction l with
  | nil => simp [aset, alookup]
  | cons hd tl ih =>
      obtain ⟨k', v'⟩ := hd
      by_cases h : k' = k
      · simp [aset, alookup, h]
      · simp [aset, alookup, h, ih]

/-- Rewriting the status of every row with a given id preserves row ids,
so the first row found for that id afterwards carries the new status. -/
theorem find?_status_overwrite (l : List SessionRow) (sid : Nat) (status : String)
    (h : l.any (fun r => r.id == sid) = true) :
    ((l.map (fun r => if r.id == sid then { r with status := status } else r)).find?
        (fun r => r.id == sid)).map SessionRow.status = some status := by
  induction l with
  | nil => simp at h
  | cons hd tl ih =>
      by_cases hid : hd.id = sid
      · have hhd : (if hd.id == sid then { hd with status := status } else hd)
            = { hd with status := status } := by simp [hid]
        rw [List.map_cons, hhd, List.find?_cons_of_pos]
        · rfl
        · simp [hid]
      · have hhd : (if hd.id == sid then { hd with status := status } else hd) = hd := by
          simp [hid]
        have h' : tl.any (fun r => r.id == sid) = true := by
          simp only [List.any_cons, Bool.or_eq_true, beq_iff_eq] at h
          exact h.resolve_left hid
        rw [List.map_cons, hhd, List.find?_cons_of_neg]
        · exact ih h'
        · simp [hid]

/-- Turn history read back for a session id after a dump: the dump first
deleted every message row of that id, so the only rows the filter keeps
are the freshly inserted ones, in insertion order, and they decode back
to exactly the dumped history. -/
theorem history_for_dump (dbS : List SessionRow) (msgs : List MessageRow)
    (sid : Nat) (h : List ChatMessage) :
    history_for
      ⟨dbS, msgs.filter (fun m => !(m.session_id == sid))
              ++ h.map (fun m => ⟨sid, m.role, m.content⟩)⟩ sid = h := by
  unfold history_for
  dsimp only
  rw [List.filter_append]
  have h1 : (msgs.filter (fun m => !(m.session_id == sid))).filter
      (fun m => m.session_id == sid) = [] := by
    rw [List.filter_eq_nil_iff]
    intro a ha
    have := List.of_mem_filter ha
    simp only [Bool.not_eq_true'] at this
    simp [this]
  have h2 : (h.map (fun m => (⟨sid, m.role, m.content⟩ : MessageRow))).filter
      (fun m => m.session_id == sid) = h.map (fun m => ⟨sid, m.role, m.content⟩) := by
    rw [List.filter_eq_self]
    intro a ha
    obtain ⟨m, hm, rfl⟩ := List.mem_map.mp ha
    simp
  rw [h1, h2, List.nil_append, List.map_map]
  exact List.map_id h

/-- Loading a session id from a state whose message table holds a
freshly dumped history for that id, whose session table holds a row for
it, and whose read cache holds the dumped dict, returns a record carrying
exactly the dumped history — through either the cache-hit branch or the
database branch. -/
theorem load_after_dump (S : List SessionRow) (M : List MessageRow)
    (C : List (Nat × SessionRec)) (E : List (Nat × ℚ))
    (sess : SessionRec) (sid : Nat) (now3 : ℚ)
    (hrow : ∃ r ∈ S, r.id = sid)
    (hc : alookup C sid = some sess) :
    ∃ rec : SessionRec,
      (load_session
        ⟨⟨S, M.filter (fun m => !(m.session_id == sid))
              ++ sess.history.map (fun m => ⟨sid, m.role, m.content⟩)⟩, C, E⟩
        sid now3).2 = some rec ∧
      rec.history = sess.history := by
  unfold load_session
  rw [hc]
  simp only [Option.isSome_some, Bool.true_and]
  by_cases hv : is_cache_valid
      ⟨⟨S, M.filter (fun m => !(m.session_id == sid))
            ++ sess.history.map (fun m => ⟨sid, m.role, m.content⟩)⟩, C, E⟩ sid now3 = true
  · rw [hv]
    simp only [if_true]
    exact ⟨sess, rfl, rfl⟩
  · rw [Bool.not_eq_true] at hv
    rw [hv]
    simp only [Bool.false_eq_true, if_false]
    rcases hfind : S.find? (fun r => r.id == sid) with _ | row
    · exfalso
      obtain ⟨r, hr, hrid⟩ := hrow
      have := List.find?_eq_none.mp hfind r hr
      simp [hrid] at this
    · rw [hfind]
      dsimp only
      refine ⟨_, rfl, ?_⟩
      dsimp only
      exact history_for_dump S M sid sess.history

/-- Storing a key in the TTL cache and looking it up again finds the
stored value with expiry `now + ttl`: the insertion first removed every
other binding of the key, and capacity eviction only ever removes
older entries. -/
theorem lookupEntry_setItem {α : Type} (c : TTLCache α) (k : String) (v : α) (now : ℚ) :
    (c.setItem k v now).lookupEntry k = some (v, now + c.ttl) := by
  unfold TTLCache.setItem TTLCache.lookupEntry
  dsimp only
  rw [List.find?_append]
  have hmem : ∀ e ∈ c.entries.filter (fun e => now < e.2.2 && !(e.1 == k)),
      ¬ (e.1 == k) = true := by
    intro e he
    have hcond := List.of_mem_filter he
    simp only [Bool.and_eq_true, Bool.not_eq_true', decide_eq_true_eq] at hcond
    simp [hcond.2]
  have hnone : List.find? (fun e => e.1 == k)
      (if c.maxsize ≤ (c.entries.filter (fun e => now < e.2.2 && !(e.1 == k))).length
       then (c.entries.filter (fun e => now < e.2.2 && !(e.1 == k))).drop 1
       else c.entries.filter (fun e => now < e.2.2 && !(e.1 == k))) = none := by
    rw [List.find?_eq_none]
    intro x hx
    apply hmem
    by_cases hsz : c.maxsize ≤ (c.entries.filter (fun e => now < e.2.2 && !(e.1 == k))).length
    · rw [if_pos hsz] at hx
      exact List.drop_subset 1 _ hx
    · rw [if_neg hsz] at hx
      exact hx
  rw [hnone]
  simp [List.find?]

/-- Behaviour of a `_get_cached_completion` call issued after a miss
stored the key: within the TTL window it hits (no provider call) and
returns the stored value; at or past the expiry it misses and calls the
provider again. -/
theorem get_cached_completion_after_miss {α : Type} (c : TTLCache α) (k : String)
    (v1 v2 : α) (t1 t2 : ℚ) (r2 : α) (c2 : TTLCache α) (i2 : Bool)
    (h2 : get_cached_completion (c.setItem k v1 t1) k v2 t2 = (r2, c2, i2)) :
    (t2 < t1 + c.ttl → i2 = false ∧ r2 = v1) ∧ (t1 + c.ttl ≤ t2 → i2 = true) := by
  have hl := lookupEntry_setItem c k v1 t1
  unfold get_cached_completion at h2
  rw [hl] at h2
  dsimp only at h2
  by_cases ht : t2 < t1 + c.ttl
  · rw [if_pos ht] at h2
    simp only [Prod.mk.injEq] at h2
    obtain ⟨rfl, rfl, rfl⟩ := h2
    exact ⟨fun _ => ⟨rfl, rfl⟩, fun hge => absurd ht (not_lt.mpr hge)⟩
  · rw [if_neg ht] at h2
    simp only [Prod.mk.injEq] at h2
    obtain ⟨rfl, rfl, rfl⟩ := h2
    exact ⟨fun hlt => absurd hlt ht, fun _ => rfl⟩

/-- Mutual containment of two lists, as computed by `sameKeySet`, is
elementwise membership equivalence (Python `set(a) == set(b)`). -/
theorem sameKeySet_iff (a b : List String) :
    sameKeySet a b = true ↔ ∀ p, p ∈ a ↔ p ∈ b := by
  simp only [sameKeySet, Bool.and_eq_true, List.all_eq_true, List.contains, List.elem_iff]
  constructor
  · rintro ⟨h1, h2⟩ p
    exact ⟨fun hp => h1 p hp, fun hp => h2 p hp⟩
  · intro h
    exact ⟨fun p hp => (h p).mp hp, fun p hp => (h p).mpr hp⟩

end Tumai

namespace Tumai

/-! ### Claims -/

/-- C4.  Evaluation Extractor reference output: on the reference input
the four dimension scores are `8, 6, 10, 4`, the overall score is exactly
`0.7` (the mean of the dimensions rescaled to `[0, 1]`, computed exactly
over `ℚ`), and the end-of-session decision is `true`. -/
theorem c4_extractor_reference_output :
    parseDimScores (String.toList
        "Diagnostic Reasoning Score: 8\nInformation Gathering Score: 6\nDiagnosis Accuracy Score: 10\nCommunication Score: 4\nEnd Conversation: Yes")
      = (8, 6, 10, 4) ∧
    extractEvaluation (String.toList
        "Diagnostic Reasoning Score: 8\nInformation Gathering Score: 6\nDiagnosis Accuracy Score: 10\nCommunication Score: 4\nEnd Conversation: Yes")
      = (7/10, true, []) := by
  have hd : parseDimScores (String.toList
      "Diagnostic Reasoning Score: 8\nInformation Gathering Score: 6\nDiagnosis Accuracy Score: 10\nCommunication Score: 4\nEnd Conversation: Yes")
      = (8, 6, 10, 4) := by rfl
  refine ⟨hd, ?_⟩
  unfold extractEvaluation
  rw [hd]
  refine Prod.ext ?_ (Prod.ext ?_ ?_)
  · norm_num
  · rfl
  · rfl

/-- C3.  Turn-protocol safety gate: the `validate_teacher_reply`
dependency looks up `security_agent.check`, an attribute the
`SecurityAgent` class never defines, so every request — here one whose
latest content mentions a password and would be flagged by the keyword
check — dies with `AttributeError` instead of receiving the
`SecurityBreachException` rejection the code's own docstring promises. -/
theorem c3_gate_raises_attribute_error :
    validate_teacher_reply ⟨12345, [⟨"user", "The patient password is 1234"⟩]⟩
      = .attributeErr "check" := by
  rfl

/-- C10.  A failing `dump_session` write rolls the transaction back and
swallows the exception: the whole `SessionManager` state (database and
read cache alike — `_cache_session` runs only after the commit) is
unchanged, and since the model's codomain is a plain state (the Python
function returns `None` on both paths), the caller sees a normal return
indistinguishable from a successful write. -/
theorem c10_dump_failure_rolls_back (st : SMState) (sess : SessionRec) (now : ℚ) :
    dump_session st sess true now = st := by
  rfl

/-- C7 counterexample.  `update_session_status` enforces no monotonic
transition: on a store holding one session whose status is `finished`,
setting the status back to `active` succeeds and overwrites the stored
status (the claim requires an `InvalidTransition` failure that leaves the
status unchanged; the operation has no failure outcome at all). -/
theorem c7_finished_to_active_succeeds :
    (update_session_status ⟨⟨[⟨1, "finished", none, none⟩], []⟩, [], []⟩ 1 "active").db.sessions
      = [⟨1, "active", none, none⟩] := by
  rfl

/-- C7 amended.  `update_session_status` performs no transition check:
for an existing session id — whatever the stored status, including
`finished` — the requested status is written unconditionally, and an
unknown id leaves the state unchanged (with only a logged warning). -/
theorem c7_status_overwritten_unconditionally (st : SMState) (sid : Nat)
    (status : String) :
    (st.db.sessions.any (fun r => r.id == sid) = true →
      ((update_session_status st sid status).db.sessions.find?
          (fun r => r.id == sid)).map SessionRow.status = some status) ∧
    (st.db.sessions.any (fun r => r.id == sid) = false →
      update_session_status st sid status = st) := by
  constructor
  · intro h
    simp only [update_session_status, h, if_true]
    exact find?_status_overwrite st.db.sessions sid status h
  · intro h
    simp [update_session_status, h]

/-- C7 witness.  The amended theorem applied to the finished-session
store: the overwrite to `active` is visible in the store. -/
theorem c7_status_overwritten_witness :
    ((update_session_status ⟨⟨[⟨1, "finished", none, none⟩], []⟩, [], []⟩ 1 "active").db.sessions.find?
        (fun r => r.id == 1)).map SessionRow.status = some "active" :=
  (c7_status_overwritten_unconditionally
    ⟨⟨[⟨1, "finished", none, none⟩], []⟩, [], []⟩ 1 "active").1 (by rfl)

/-- C6 counterexample.  A corpus whose single file kept its mtime but
changed size from the recorded `5` to `7`: the size pair differs from the
manifest, so the claim requires `stale`, but `_has_docs_changed` never
reads the stored sizes and reports `fresh`. -/
theorem c6_size_change_reported_fresh :
    has_docs_changed (some [⟨"a.txt", 10, 5⟩]) [⟨"a.txt", ".txt", 10, 7, true⟩] = false ∧
    (⟨"a.txt", ".txt", 10, 7, true⟩ : FsEntry).size ≠ (⟨"a.txt", 10, 5⟩ : ManifestRow).size := by
  constructor
  · simp [has_docs_changed, current_files_metadata, sameKeySet, storedMtime, mtimeTol]
  · decide

/-- C9 counterexample.  On empty evaluator output the extraction does
fall back to all-`5.0` dimensions (overall `0.5`) and a `false`
continuation decision, but the rationale it returns is the empty string,
not the fixed extraction-failed message the claim requires (that fixed
message is produced only by the exception handler around the external
call, which unparsable text never triggers). -/
theorem c9_empty_input_rationale_empty :
    parseDimScores [] = (5, 5, 5, 5) ∧
    extractEvaluation [] = (1/2, false, []) ∧
    ([] : List Char) ≠ "Error evaluating response, please continue.".toList := by
  have hd : parseDimScores [] = (5, 5, 5, 5) := by rfl
  refine ⟨hd, ?_, by decide⟩
  unfold extractEvaluation
  rw [hd]
  refine Prod.ext ?_ (Prod.ext ?_ ?_)
  · norm_num
  · rfl
  · rfl

/-- C9 amended.  The extraction is a total function of the raw text (no
input makes it raise), and on wholly unparsable input — any text in which
none of the four score labels, the `End Conversation` label or the
`Feedback` label is found — it returns the neutral fallback: every
dimension `5.0`, overall score `0.5`, continuation decision `false`, and
an *empty* rationale.  The fixed "Error evaluating response, please
continue." message is produced only by the exception handler around the
external completion call, never by the text extraction. -/
theorem c9_unparsable_input_neutral_defaults (text : List Char)
    (h1 : findLabelNum drLabel text = none)
    (h2 : findLabelNum igLabel text = none)
    (h3 : findLabelNum daLabel text = none)
    (h4 : findLabelNum commLabel text = none)
    (h5 : findLabelField ecLabel text = none)
    (h6 : findLabelField fbLabel text = none) :
    extractEvaluation text = (1/2, false, []) := by
  have hd : parseDimScores text = (5, 5, 5, 5) := by
    unfold parseDimScores combinedPattern
    rw [h1]
    simp [extract_score, h1, h2, h3, h4]
  unfold extractEvaluation
  rw [hd]
  refine Prod.ext ?_ (Prod.ext ?_ ?_)
  · norm_num
  · simp only [extract_field, h5]
    rfl
  · simp only [extract_field, h6]

/-- C9 witness.  The amended theorem applied to a concrete unparsable
text carrying none of the labels. -/
theorem c9_unparsable_input_witness :
    extractEvaluation (String.toList "no scores here") = (1/2, false, []) :=
  c9_unparsable_input_neutral_defaults (String.toList "no scores here")
    rfl rfl rfl rfl rfl rfl

/-- C6 amended.  The staleness check consults only file paths and
modification times, one-sidedly: a manifest-less corpus is stale, and a
corpus with a manifest is fresh exactly when the eligible current path
set coincides with the manifest's path set and no file's current mtime
exceeds its recorded mtime by more than the `1e-6` tolerance.  Recorded
sizes are never compared, and an mtime that moved backwards is treated as
unchanged. -/
theorem c6_mtime_only_staleness (rows : List ManifestRow) (dir : List FsEntry) :
    has_docs_changed none dir = true ∧
    (has_docs_changed (some rows) dir = false ↔
      ((∀ p : String, p ∈ (current_files_metadata dir).map Prod.fst ↔
          p ∈ rows.map ManifestRow.path) ∧
       ∀ e ∈ current_files_metadata dir,
         e.2 ≤ storedMtime (rows.map (fun r => (r.path, r.mtime))) e.1 + mtimeTol)) := by
  refine ⟨rfl, ?_⟩
  have hmap : (rows.map (fun r => (r.path, r.mtime))).map Prod.fst
      = rows.map ManifestRow.path := by simp
  unfold has_docs_changed
  dsimp only
  by_cases hsk : sameKeySet ((current_files_metadata dir).map Prod.fst)
      ((rows.map (fun r => (r.path, r.mtime))).map Prod.fst) = true
  · rw [hsk]
    simp only [Bool.not_true, Bool.false_eq_true, if_false]
    rw [hmap] at hsk
    rw [sameKeySet_iff] at hsk
    constructor
    · intro hany
      refine ⟨hsk, ?_⟩
      intro e he
      have := (List.any_eq_false.mp hany) e he
      simpa [not_lt] using this
    · rintro ⟨-, hbound⟩
      rw [List.any_eq_false]
      intro e he
      simpa [not_lt] using hbound e he
  · rw [Bool.not_eq_true] at hsk
    rw [hsk]
    simp only [Bool.not_false, if_true]
    constructor
    · intro h
      exact absurd h (by simp)
    · rintro ⟨hmem, -⟩
      exfalso
      rw [← hmap] at hmem
      have : sameKeySet ((current_files_metadata dir).map Prod.fst)
          ((rows.map (fun r => (r.path, r.mtime))).map Prod.fst) = true := by
        rw [sameKeySet_iff]
        exact hmem
      rw [this] at hsk
      exact absurd hsk (by simp)

/-- C5.  Memoization at most once within the TTL: for two consecutive
`_get_cached_completion` calls on the same key (`i1`, `i2` record whether
each call invoked the provider), if the second call falls strictly inside
the first call's TTL window then the provider runs at most once across
the two calls, and whenever the first call computed, the second returns
the very value the first stored; if instead the first call computed and
the second happens at or after the expiry, the entry is treated as absent
and the provider is invoked again. -/
theorem c5_memoized_at_most_once {α : Type} (c : TTLCache α) (k : String)
    (v1 v2 : α) (t1 t2 : ℚ) (r1 r2 : α) (c1 c2 : TTLCache α) (i1 i2 : Bool)
    (h1 : get_cached_completion c k v1 t1 = (r1, c1, i1))
    (h2 : get_cached_completion c1 k v2 t2 = (r2, c2, i2)) :
    (t2 < t1 + c.ttl → ¬(i1 = true ∧ i2 = true) ∧ (i1 = true → r2 = r1)) ∧
    (i1 = true → t1 + c.ttl ≤ t2 → i2 = true) := by
  unfold get_cached_completion at h1
  rcases hc : c.lookupEntry k with _ | ⟨v, exp⟩
  · rw [hc] at h1
    dsimp only at h1
    simp only [Prod.mk.injEq] at h1
    obtain ⟨rfl, rfl, rfl⟩ := h1
    have h := get_cached_completion_after_miss c k v1 v2 t1 t2 r2 c2 i2 h2
    refine ⟨fun ht => ⟨?_, fun _ => (h.1 ht).2⟩, fun _ hge => h.2 hge⟩
    rintro ⟨-, hi2⟩
    rw [(h.1 ht).1] at hi2
    cases hi2
  · rw [hc] at h1
    dsimp only at h1
    by_cases ht1 : t1 < exp
    · rw [if_pos ht1] at h1
      simp only [Prod.mk.injEq] at h1
      obtain ⟨rfl, rfl, rfl⟩ := h1
      exact ⟨fun _ => ⟨fun hp => absurd hp.1 (by simp), fun h => absurd h (by simp)⟩,
             fun h => absurd h (by simp)⟩
    · rw [if_neg ht1] at h1
      simp only [Prod.mk.injEq] at h1
      obtain ⟨rfl, rfl, rfl⟩ := h1
      have h := get_cached_completion_after_miss c k v1 v2 t1 t2 r2 c2 i2 h2
      refine ⟨fun ht => ⟨?_, fun _ => (h.1 ht).2⟩, fun _ hge => h.2 hge⟩
      rintro ⟨-, hi2⟩
      rw [(h.1 ht).1] at hi2
      cases hi2

/-- C5 witness.  On an empty completion cache with TTL `3600`: a miss at
time `0` followed by a call at time `1` — the theorem instantiated there,
with both call equations discharged by computation. -/
theorem c5_memoized_witness :
    ((1 : ℚ) < 0 + (⟨[], 3600, 100⟩ : TTLCache ℕ).ttl →
      ¬(true = true ∧ false = true) ∧ (true = true → (1 : ℕ) = 1)) ∧
    (true = true → 0 + (⟨[], 3600, 100⟩ : TTLCache ℕ).ttl ≤ (1 : ℚ) → false = true) := by
  refine c5_memoized_at_most_once (⟨[], 3600, 100⟩ : TTLCache ℕ) "completion" 1 2 0 1 1 1
    (⟨[("completion", 1, 0 + 3600)], 3600, 100⟩ : TTLCache ℕ)
    (⟨[("completion", 1, 0 + 3600)], 3600, 100⟩ : TTLCache ℕ) true false rfl ?_
  unfold get_cached_completion
  have hl : (⟨[("completion", 1, 0 + 3600)], 3600, 100⟩ : TTLCache ℕ).lookupEntry "completion"
      = some (1, 0 + 3600) := rfl
  rw [hl]
  dsimp only
  rw [if_pos (show (1 : ℚ) < 0 + 3600 by norm_num)]

/-- C1.  Round-trip through the session store: starting from any state,
a successful `init_session`, followed by appending one turn with content
`x` to the session dict and persisting it with `dump_session`, makes
`load_session` on that id return a record whose last turn is the appended
one — whether the load is served from the read cache or, after cache
expiry, from the database. -/
theorem c1_roundtrip_last_turn (st : SMState) (task : Task) (sid : Nat)
    (now1 now2 now3 : ℚ) (role x : String) (st1 : SMState) (sess : SessionRec)
    (hinit : init_session st task sid now1 = .ok (st1, sess)) :
    ∃ rec : SessionRec,
      (load_session
          (dump_session st1 { sess with history := sess.history ++ [⟨role, x⟩] } false now2)
          sid now3).2 = some rec ∧
      rec.history.getLast? = some ⟨role, x⟩ := by
  unfold init_session at hinit
  by_cases hex : st.db.sessions.any (fun r => r.id == sid) = true
  · rw [if_pos hex] at hinit
    exact Except.noConfusion hinit
  · rw [if_neg hex] at hinit
    dsimp only at hinit
    simp only [Except.ok.injEq, Prod.mk.injEq] at hinit
    obtain ⟨rfl, rfl⟩ := hinit
    set sess' : SessionRec :=
      { session_id := sid, status := "active", scenario := none, diagnosis := none,
        history := [⟨"teacher", task.description⟩] ++ [⟨role, x⟩] } with hsess
    set stInit : SMState := cache_session
      { st with db := ⟨st.db.sessions ++ [⟨sid, "active", none, none⟩],
                       st.db.messages ++ [⟨sid, "teacher", task.description⟩]⟩ }
      ⟨sid, "active", none, none, [⟨"teacher", task.description⟩]⟩ now1 with hstInit
    have hany : stInit.db.sessions.any (fun r => r.id == sess'.session_id) = true := by
      simp [hstInit, cache_session]
    have hdump : dump_session stInit sess' false now2 =
        cache_session
          { stInit with db :=
              ⟨stInit.db.sessions.map (fun r =>
                  if r.id == sid then
                    { r with status := "active", scenario := some "", diagnosis := some "" }
                  else r),
               stInit.db.messages.filter (fun m => !(m.session_id == sid))
                 ++ sess'.history.map (fun m => ⟨sid, m.role, m.content⟩)⟩ }
          sess' now2 := by
      unfold dump_session
      rw [hany]
      rfl
    rw [hdump]
    have hrow : ∃ r ∈ stInit.db.sessions.map (fun r =>
        if r.id == sid then
          ({ r with status := "active", scenario := some "", diagnosis := some "" } : SessionRow)
        else r), r.id = sid := by
      refine ⟨_, List.mem_map_of_mem (fun r =>
        if r.id == sid then
          ({ r with status := "active", scenario := some "", diagnosis := some "" } : SessionRow)
        else r) (?_ :
        (⟨sid, "active", none, none⟩ : SessionRow) ∈ stInit.db.sessions), ?_⟩
      · simp [hstInit, cache_session]
      · simp
    have hc : alookup (aset stInit.session_cache sid sess') sid = some sess' :=
      alookup_aset _ sid sess'
    obtain ⟨rec, hload, hhist⟩ := load_after_dump
      (stInit.db.sessions.map (fun r =>
        if r.id == sid then
          { r with status := "active", scenario := some "", diagnosis := some "" }
        else r))
      stInit.db.messages
      (aset stInit.session_cache sid sess')
      (aset stInit.cache_expiry sid (now2 + cache_ttl))
      sess' sid now3 hrow hc
    exact ⟨rec, hload, by rw [hhist]; exact List.getLast?_concat _⟩

/-- C1 witness.  The round-trip theorem instantiated on the concrete
state produced by a fresh `init_session` (empty store, id `10000`),
appending the turn `("user", "hello")`, dumping at time `1` and loading
at time `2`. -/
theorem c1_roundtrip_witness :
    ∃ rec : SessionRec,
      (load_session
          (dump_session
            (cache_session
              ⟨⟨[⟨10000, "active", none, none⟩], [⟨10000, "teacher", "d"⟩]⟩, [], []⟩
              ⟨10000, "active", none, none, [⟨"teacher", "d"⟩]⟩ 0)
            ⟨10000, "active", none, none, [⟨"teacher", "d"⟩, ⟨"user", "hello"⟩]⟩ false 1)
          10000 2).2 = some rec ∧
      rec.history.getLast? = some ⟨"user", "hello"⟩ :=
  c1_roundtrip_last_turn ⟨⟨[], []⟩, [], []⟩ ⟨1, "t", "d"⟩ 10000 0 1 2 "user" "hello" _ _ rfl

/-- C8.  A successful `init_session` implies the drawn id collided with
no id already in the store (a collision would have hit the PRIMARY KEY
constraint and raised), the returned record carries that id with status
`active`, the `active` session row is persisted in the database before
returning, and pairwise distinctness of the stored ids is preserved. -/
theorem c8_init_session_fresh_id (st : SMState) (task : Task) (sid : Nat) (now : ℚ)
    (st' : SMState) (sess : SessionRec)
    (h : init_session st task sid now = .ok (st', sess)) :
    (∀ r ∈ st.db.sessions, r.id ≠ sid) ∧
    sess.session_id = sid ∧ sess.status = "active" ∧
    (⟨sid, "active", none, none⟩ : SessionRow) ∈ st'.db.sessions ∧
    ((st.db.sessions.map SessionRow.id).Nodup → (st'.db.sessions.map SessionRow.id).Nodup) := by
  unfold init_session at h
  by_cases hex : st.db.sessions.any (fun r => r.id == sid) = true
  · rw [if_pos hex] at h
    exact Except.noConfusion h
  · rw [if_neg hex] at h
    dsimp only at h
    simp only [Except.ok.injEq, Prod.mk.injEq] at h
    obtain ⟨rfl, rfl⟩ := h
    have hfresh : ∀ r ∈ st.db.sessions, r.id ≠ sid := by
      intro r hr
      rw [Bool.not_eq_true] at hex
      have := List.any_eq_false.mp hex r hr
      simpa using this
    refine ⟨hfresh, rfl, rfl, ?_, ?_⟩
    · show (⟨sid, "active", none, none⟩ : SessionRow) ∈
        st.db.sessions ++ [⟨sid, "active", none, none⟩]
      simp
    · intro hnd
      show ((st.db.sessions ++ ([⟨sid, "active", none, none⟩] : List SessionRow)).map
        SessionRow.id).Nodup
      rw [List.map_append, List.nodup_append]
      refine ⟨hnd, by simp, ?_⟩
      intro a ha hb
      simp only [List.map_cons, List.map_nil, List.mem_singleton] at hb
      subst hb
      obtain ⟨r, hr, hrid⟩ := List.mem_map.mp ha
      exact hfresh r hr hrid

/-- C8 witness.  The freshness theorem instantiated on the empty store
with drawn id `10000`, its hypothesis discharged by computing
`init_session`. -/
theorem c8_init_session_witness :
    (∀ r ∈ ([] : List SessionRow), r.id ≠ 10000) ∧
    (⟨10000, "active", none, none, [⟨"teacher", "e"⟩]⟩ : SessionRec).session_id = 10000 ∧
    (⟨10000, "active", none, none, [⟨"teacher", "e"⟩]⟩ : SessionRec).status = "active" ∧
    (⟨10000, "active", none, none⟩ : SessionRow) ∈
      ([⟨10000, "active", none, none⟩] : List SessionRow) ∧
    ((([] : List SessionRow).map SessionRow.id).Nodup →
      (([⟨10000, "active", none, none⟩] : List SessionRow).map SessionRow.id).Nodup) :=
  c8_init_session_fresh_id ⟨⟨[], []⟩, [], []⟩ ⟨2, "u", "e"⟩ 10000 0 _ _ rfl

/-- C2 counterexample.  A store holding exactly one session, with status
`finished`: a subsequent `_eval_reply` on that id does not fail with the
`SessionNotFound` error the claim requires — the status is never
inspected and the call returns a normal response. -/
theorem c2_finished_session_not_rejected :
    ((⟨⟨[⟨7, "finished", none, none⟩], [⟨7, "teacher", "hi"⟩]⟩, [], []⟩ : SMState).db.sessions.map
        SessionRow.status = ["finished"]) ∧
    exceptOk (eval_reply_step ⟨⟨[⟨7, "finished", none, none⟩], [⟨7, "teacher", "hi"⟩]⟩, [], []⟩
      ⟨7, [⟨"user", "I think it is flu"⟩]⟩ (.error ()) (String.toList "ok") 0) = true := by
  exact ⟨rfl, rfl⟩

/-- C2 amended.  `_eval_reply` fails with the `"Session not found."`
error exactly when the session lookup returns nothing; whenever the
lookup finds a session — its status, `finished` included, is never
examined — the call completes normally. -/
theorem c2_submit_fails_only_on_absent (st : SMState) (req : ReplyRequest)
    (ec : Except Unit (List Char)) (gr : List Char) (now : ℚ) :
    ((load_session st req.session_id now).2 = none ↔
      eval_reply_step st req ec gr now = .error "Session not found.") ∧
    (∀ sess, (load_session st req.session_id now).2 = some sess →
      exceptOk (eval_reply_step st req ec gr now) = true) := by
  rcases hl : load_session st req.session_id now with ⟨st0, o⟩
  cases o with
  | none =>
      refine ⟨⟨fun _ => ?_, fun _ => rfl⟩, fun sess hs => by simp at hs⟩
      unfold eval_reply_step
      rw [hl]
  | some sess0 =>
      have hok : exceptOk (eval_reply_step st req ec gr now) = true := by
        unfold eval_reply_step
        rw [hl]
        rfl
      refine ⟨⟨fun hnone => by simp at hnone, fun herr => ?_⟩, fun sess hs => hok⟩
      rw [herr] at hok
      simp [exceptOk] at hok

/-- C2 witness.  The amended theorem applied to a store whose only
session is `finished`: the lookup finds it and the call completes without
an error. -/
theorem c2_submit_on_finished_witness :
    exceptOk (eval_reply_step ⟨⟨[⟨8, "finished", none, none⟩], [⟨8, "teacher", "start"⟩]⟩, [], []⟩
      ⟨8, [⟨"user", "hello"⟩]⟩ (.ok (String.toList "Diagnostic Reasoning Score: 9"))
      (String.toList "resp") 5) = true :=
  (c2_submit_fails_only_on_absent
      ⟨⟨[⟨8, "finished", none, none⟩], [⟨8, "teacher", "start"⟩]⟩, [], []⟩
      ⟨8, [⟨"user", "hello"⟩]⟩ (.ok (String.toList "Diagnostic Reasoning Score: 9"))
      (String.toList "resp") 5).2
    ⟨8, "finished", none, none, [⟨"teacher", "start"⟩]⟩ rfl

end Tumai
